import Mathlib

/-!
Verification of the changelog-entry formatting core of the
`copilot-external-doc-updater` GitHub Action (`src/utils.js`), as a
shallow embedding in Lean.

Strings are modelled by Lean `String` (`List Char` underneath); JS
`Array.prototype.join('\n')` is modelled by `joinLines`; JS
`String.prototype.substring(0, n)` by `substringTo`; the JS `x || d`
default idiom on possibly-missing strings by `jsOr` (absent and the
empty string are both falsy in JS).  The impure `new Date()` used for
the entry date is passed in explicitly as a `today` parameter.
-/

namespace DocUpdater

/-- JS `s.substring(0, n)`: the first `n` characters of `s`
(all of `s` when `s` is shorter than `n`). -/
def substringTo (s : String) (n : Nat) : String := ⟨s.data.take n⟩

/-- JS `x || d` on a possibly-absent string field: `null`/`undefined`
(here `none`) and the empty string are falsy, so both fall back to `d`. -/
def jsOr (x : Option String) (d : String) : String :=
  match x with
  | none => d
  | some s => if s = "" then d else s

/-- JS `Array.prototype.join('\n')`. -/
def joinLines : List String → String
  | [] => ""
  | [x] => x
  | x :: y :: xs => x ++ "\n" ++ joinLines (y :: xs)

/-- A changed-file record as delivered by the source-control host for a
pull request (`path`, `status`, addition/deletion counts).  The source
reads the path from the `filename` field. -/
structure PRFile where
  filename : String
  status : String
  additions : Nat
  deletions : Nat
deriving DecidableEq

/-- One rendered bullet line of `formatPRFiles`: a dash, the path,
then `(<status>, +<additions>` a slash `-<deletions>)`. -/
def prLine (f : PRFile) : String :=
  "- " ++ f.filename ++ " (" ++ f.status ++ ", +" ++ toString f.additions
    ++ "/-" ++ toString f.deletions ++ ")"

/-- `formatPRFiles(files)` from `src/utils.js`: one bullet line per
file, joined by newlines. -/
def formatPRFiles (files : List PRFile) : String :=
  joinLines (files.map prLine)

/-- A repository-tree entry (`path`, and entry kind: `"blob"` for a
file, `"tree"` for a directory). -/
structure TreeItem where
  path : String
  type : String
deriving DecidableEq

/-- One rendered line of `formatTreeFiles`: `- <path>`. -/
def treeLine (t : TreeItem) : String := "- " ++ t.path

/-- `formatTreeFiles(tree, limit = 50)` from `src/utils.js`: keep only
`"blob"` entries, take at most `limit` of them, render `- <path>` per
line, join by newlines. -/
def formatTreeFiles (tree : List TreeItem) (limit : Nat := 50) : String :=
  joinLines ((((tree.filter (fun t => t.type = "blob")).take limit).map treeLine))

/-- The changelog-entry record produced by the two entry builders.
Fields that only one builder populates (`prNumber`, `commit`,
`repoDescription`) are `Option`s; an absent field is JS `undefined`. -/
structure ChangelogEntry where
  type : String
  date : String
  title : String
  prNumber : Option Nat := none
  commit : Option String := none
  author : String
  url : String
  summary : String
  files : String
  repoDescription : Option String := none

/-- Pull-request metadata consumed by `createPRChangelogEntry`
(`title`, `number`, `user.login`, `html_url`, `body`). -/
structure PullRequest where
  title : String
  number : Nat
  userLogin : String
  htmlUrl : String
  body : Option String

/-- `createPRChangelogEntry(pullRequest, filesList)` from
`src/utils.js`.  The current date (`new Date().toISOString()` date
part) is passed in as `today`. -/
def createPRChangelogEntry (pullRequest : PullRequest) (filesList : String)
    (today : String) : ChangelogEntry :=
  { type := "pr"
    date := today
    title := pullRequest.title
    prNumber := some pullRequest.number
    author := pullRequest.userLogin
    url := pullRequest.htmlUrl
    summary := jsOr pullRequest.body "No description provided"
    files := filesList }

/-- Repository metadata consumed by `createSyncChangelogEntry`
(`default_branch`, `description`). -/
structure Repo where
  defaultBranch : String
  description : Option String

/-- Latest-commit metadata consumed by `createSyncChangelogEntry`
(`sha`, `commit.author.name`, `commit.message`, `html_url`). -/
structure LatestCommit where
  sha : String
  authorName : String
  message : String
  htmlUrl : String

/-- `createSyncChangelogEntry(repo, latestCommit, filesList)` from
`src/utils.js`.  `latestCommit.sha.substring(0, 7)` is the short
commit hash. -/
def createSyncChangelogEntry (repo : Repo) (latestCommit : LatestCommit)
    (filesList : String) (today : String) : ChangelogEntry :=
  { type := "sync"
    date := today
    title := "Documentation sync from " ++ repo.defaultBranch
    commit := some (substringTo latestCommit.sha 7)
    author := latestCommit.authorName
    url := latestCommit.htmlUrl
    summary := "Synced documentation from " ++ repo.defaultBranch
      ++ " branch.\n\nLatest commit: " ++ latestCommit.message
    files := filesList
    repoDescription := some (jsOr repo.description "No description") }

/-- A Notion rich-text item: text content with an optional link url. -/
structure RichText where
  content : String
  link : Option String := none
deriving DecidableEq

/-- A Notion block as built by `buildNotionBlocks` (only the shapes
the source emits). -/
inductive NotionBlock where
  | heading2 (richText : List RichText)
  | paragraph (richText : List RichText)
  | toggle (richText : List RichText) (children : List NotionBlock)
  | code (richText : List RichText) (language : String)
  | divider

/-- The JS `type` field of a Notion block object. -/
def NotionBlock.typeName : NotionBlock → String
  | .heading2 _ => "heading_2"
  | .paragraph _ => "paragraph"
  | .toggle _ _ => "toggle"
  | .code _ _ => "code"
  | .divider => "divider"

/-- Content of the first rich-text item of a block (`""` when none). -/
def NotionBlock.firstContent : NotionBlock → String
  | .heading2 (r :: _) => r.content
  | .paragraph (r :: _) => r.content
  | .toggle (r :: _) _ => r.content
  | .code (r :: _) _ => r.content
  | _ => ""

/-- Link of the first rich-text item of a block (`none` when none). -/
def NotionBlock.firstLink : NotionBlock → Option String
  | .heading2 (r :: _) => r.link
  | .paragraph (r :: _) => r.link
  | .toggle (r :: _) _ => r.link
  | .code (r :: _) _ => r.link
  | _ => none

/-- JS template-literal interpolation of a possibly-absent number
(`${undefined}` renders as `"undefined"`). -/
def optNatText (o : Option Nat) : String :=
  match o with
  | some n => toString n
  | none => "undefined"

/-- JS template-literal interpolation of a possibly-absent string. -/
def optStrText (o : Option String) : String :=
  match o with
  | some s => s
  | none => "undefined"

/-- The reference line computed inside `buildNotionBlocks`:
`PR #<prNumber> by @<author>` when `type === 'pr'`, otherwise
`Commit <commit> by <author>`. -/
def referenceText (e : ChangelogEntry) : String :=
  if e.type = "pr" then
    "PR #" ++ optNatText e.prNumber ++ " by @" ++ e.author
  else
    "Commit " ++ optStrText e.commit ++ " by " ++ e.author

/-- `buildNotionBlocks(changelogEntry)` from `src/utils.js`: a fixed
five-block sequence — heading, linked reference paragraph, summary
paragraph (summary cut to its first 2000 characters), a
`Changed files` toggle holding the files listing as a plain-text code
block, and a divider. -/
def buildNotionBlocks (e : ChangelogEntry) : List NotionBlock :=
  [ .heading2 [{ content := e.date ++ " - " ++ e.title }]
  , .paragraph [{ content := referenceText e, link := some e.url }]
  , .paragraph [{ content := substringTo e.summary 2000 }]
  , .toggle [{ content := "Changed files" }]
      [ .code [{ content := e.files }] "plain text" ]
  , .divider ]

/-- Split a character list at newline characters (the lines of a
string, in the sense of JS `s.split('\n')`). -/
def splitNl : List Char → List (List Char)
  | [] => [[]]
  | c :: cs =>
    if c = '\n' then [] :: splitNl cs
    else
      match splitNl cs with
      | [] => [[c]]
      | r :: rs => (c :: r) :: rs

/-- `joinLines` at the character level. -/
def joinChars : List (List Char) → List Char
  | [] => []
  | [x] => x
  | x :: y :: xs => x ++ '\n' :: joinChars (y :: xs)

theorem data_append (a b : String) : (a ++ b).data = a.data ++ b.data := rfl

theorem joinLines_data : ∀ l : List String,
    (joinLines l).data = joinChars (l.map String.data)
  | [] => rfl
  | [_] => rfl
  | x :: y :: xs => by
    show (x ++ "\n" ++ joinLines (y :: xs)).data = _
    rw [data_append, data_append, joinLines_data (y :: xs)]
    rw [List.append_assoc]
    rfl

theorem splitNl_no_nl (x : List Char) (hx : '\n' ∉ x) : splitNl x = [x] := by
  induction x with
  | nil => rfl
  | cons c cs ih =>
    have hc : ¬ c = '\n' := fun h => hx (h ▸ List.mem_cons_self c cs)
    have hcs : '\n' ∉ cs := fun h => hx (List.mem_cons_of_mem c h)
    simp only [splitNl, if_neg hc, ih hcs]

theorem splitNl_append (x y : List Char) (hx : '\n' ∉ x) :
    splitNl (x ++ '\n' :: y) = x :: splitNl y := by
  induction x with
  | nil => simp [splitNl]
  | cons c cs ih =>
    have hc : ¬ c = '\n' := fun h => hx (h ▸ List.mem_cons_self c cs)
    have hcs : '\n' ∉ cs := fun h => hx (List.mem_cons_of_mem c h)
    have h2 : splitNl (List.append cs ('\n' :: y)) = cs :: splitNl y := ih hcs
    simp only [List.cons_append, splitNl, if_neg hc, h2]

theorem splitNl_joinChars (l : List (List Char)) (hne : l ≠ [])
    (h : ∀ x ∈ l, '\n' ∉ x) : splitNl (joinChars l) = l := by
  induction l with
  | nil => exact absurd rfl hne
  | cons x xs ih =>
    cases xs with
    | nil => exact splitNl_no_nl x (h x (List.mem_cons_self x []))
    | cons y ys =>
      show splitNl (x ++ '\n' :: joinChars (y :: ys)) = _
      rw [splitNl_append x _ (h x (List.mem_cons_self x _))]
      rw [ih (by simp) (fun z hz => h z (List.mem_cons_of_mem x hz))]

/-- The lines of a joined list of newline-free strings are exactly
those strings. -/
theorem splitNl_joinLines (l : List String) (hne : l ≠ [])
    (h : ∀ x ∈ l, '\n' ∉ x.data) :
    splitNl (joinLines l).data = l.map String.data := by
  rw [joinLines_data]
  exact splitNl_joinChars _ (by simpa using hne)
    (by intro x hx; obtain ⟨s, hs, rfl⟩ := List.mem_map.mp hx; exact h s hs)

/-- Line structure of `formatPRFiles` on a non-empty file list. -/
theorem formatPRFiles_splitNl (files : List PRFile) (hne : files ≠ [])
    (h : ∀ f ∈ files, '\n' ∉ (prLine f).data) :
    splitNl (formatPRFiles files).data =
      files.map (fun f => (prLine f).data) := by
  unfold formatPRFiles
  rw [splitNl_joinLines _ (by simpa using hne)
    (by intro x hx; obtain ⟨f, hf, rfl⟩ := List.mem_map.mp hx; exact h f hf)]
  rw [List.map_map]
  rfl

/-- Line structure of `formatTreeFiles` when at least one blob entry
is kept. -/
theorem formatTreeFiles_splitNl (tree : List TreeItem) (limit : Nat)
    (hne : (tree.filter (fun t => t.type = "blob")).take limit ≠ [])
    (h : ∀ t ∈ (tree.filter (fun t => t.type = "blob")).take limit,
      '\n' ∉ (treeLine t).data) :
    splitNl (formatTreeFiles tree limit).data =
      ((tree.filter (fun t => t.type = "blob")).take limit).map
        (fun t => (treeLine t).data) := by
  unfold formatTreeFiles
  rw [splitNl_joinLines _ (by simpa using hne)
    (by intro x hx; obtain ⟨t, ht, rfl⟩ := List.mem_map.mp hx; exact h t ht)]
  rw [List.map_map]
  rfl

/-- Hexadecimal digit (both cases, as matched by a case-insensitive
`[0-9a-f]` character class). -/
def isHexDigit (c : Char) : Bool :=
  ('0' ≤ c && c ≤ '9') || ('a' ≤ c && c ≤ 'f') || ('A' ≤ c && c ≤ 'F')

/-- Consume exactly `n` hexadecimal digits from the front of `cs`,
returning the digits and the remaining characters. -/
def takeHex : Nat → List Char → Option (List Char × List Char)
  | 0, cs => some ([], cs)
  | _ + 1, [] => none
  | n + 1, c :: cs =>
    if isHexDigit c then
      match takeHex n cs with
      | none => none
      | some (g, r) => some (c :: g, r)
    else none

/-- Consume one optional hyphen (the regex piece matching a hyphen
zero or one times, greedily). -/
def dropDash : List Char → List Char
  | '-' :: cs => cs
  | cs => cs

/-- Match the UUID shape (8-4-4-4-12 hexadecimal groups, hyphens
optional) at the front of `cs`; on success return the 32 hex digits
with the hyphens already stripped.  Greedy hyphen consumption agrees
with the regex: when a hyphen is consumed but the following group
fails, retrying without the hyphen fails as well, since a hyphen is
not a hex digit. -/
def matchUUID (cs : List Char) : Option (List Char) :=
  match takeHex 8 cs with
  | none => none
  | some (g1, r1) =>
  match takeHex 4 (dropDash r1) with
  | none => none
  | some (g2, r2) =>
  match takeHex 4 (dropDash r2) with
  | none => none
  | some (g3, r3) =>
  match takeHex 4 (dropDash r3) with
  | none => none
  | some (g4, r4) =>
  match takeHex 12 (dropDash r4) with
  | none => none
  | some (g5, _) => some (g1 ++ g2 ++ g3 ++ g4 ++ g5)

/-- Scan left to right for the first position where the UUID shape
matches (the leftmost regex match). -/
def scanUUID : List Char → Option (List Char)
  | [] => none
  | c :: cs =>
    match matchUUID (c :: cs) with
    | some g => some g
    | none => scanUUID cs

/-- Modelled from the spec: `extractPageId(text)` is not present under
`src/` (only its callers in `src/index.js` and its unit tests are).
Per spec §4.6 it returns null for empty or absent input, otherwise
scans for the first substring matching a UUID shape — 8-4-4-4-12
hexadecimal groups, hyphens optional — and returns it with all
hyphens stripped; if no match it returns null.  Absent input
(`null`/`undefined`) is `none`. -/
def extractPageId (text : Option String) : Option String :=
  match text with
  | none => none
  | some s => if s = "" then none else (scanUUID s.data).map (fun g => ⟨g⟩)

/-- JS `s.trim()`: strip whitespace from both ends of a string. -/
def strTrim (s : String) : String :=
  ⟨((s.data.dropWhile Char.isWhitespace).reverse.dropWhile Char.isWhitespace).reverse⟩

/-- The "Changed Files" collapsible section of the changelog prompt:
empty when `files` is empty after trimming, otherwise a header plus
the pre-formatted files listing. -/
def changedFilesSection (files : String) : String :=
  if strTrim files = "" then ""
  else "\n\nChanged Files (collapsible toggle):\n" ++ files

/-- The part of the changelog prompt before the optional
"Changed Files" section: target page identifier, heading line
`<date> - <title>`, the kind-appropriate reference line with the url,
and the summary truncated to 2000 characters. -/
def promptHead (e : ChangelogEntry) (pageId : String) : String :=
  "Append a new changelog entry to the Notion page with ID \"" ++ pageId
    ++ "\" consisting of:\n\n"
    ++ "Heading: " ++ e.date ++ " - " ++ e.title ++ "\n"
    ++ "Reference: " ++ referenceText e ++ " (link to " ++ e.url ++ ")\n"
    ++ "Summary: " ++ substringTo e.summary 2000

/-- The trailing instruction of the changelog prompt. -/
def promptTailText : String :=
  "\n\nFinish the entry with a divider block and prefer a single batched append call."

/-- Modelled from the spec: `buildChangelogPrompt(entry, targetPageId)`
is not present under `src/` (only its callers in `src/index.js` and
its unit tests are).  Per spec §4.5 it is a deterministic template
embedding the target page identifier, a heading line
`<date> - <title>`, the kind-appropriate reference line plus the url,
a summary paragraph truncated to the 2000-character maximum, an
optional "Changed Files" collapsible section included only when
`files` is non-empty after trimming, and a trailing instruction to
append a divider and prefer a single batched write. -/
def buildChangelogPrompt (e : ChangelogEntry) (pageId : String) : String :=
  promptHead e pageId ++ changedFilesSection e.files ++ promptTailText

theorem takeHex_spec (n : Nat) : ∀ (cs g r : List Char),
    takeHex n cs = some (g, r) →
    g.length = n ∧ (∀ c ∈ g, isHexDigit c) ∧ cs = g ++ r := by
  induction n with
  | zero =>
    intro cs g r h
    simp only [takeHex, Option.some.injEq, Prod.mk.injEq] at h
    obtain ⟨rfl, rfl⟩ := h
    exact ⟨rfl, by simp, rfl⟩
  | succ n ih =>
    intro cs g r h
    cases cs with
    | nil => simp [takeHex] at h
    | cons c cs' =>
      simp only [takeHex] at h
      by_cases hc : isHexDigit c
      · rw [if_pos hc] at h
        cases hrec : takeHex n cs' with
        | none => rw [hrec] at h; simp at h
        | some gr =>
          obtain ⟨g', r'⟩ := gr
          rw [hrec] at h
          simp only [Option.some.injEq, Prod.mk.injEq] at h
          obtain ⟨rfl, rfl⟩ := h
          obtain ⟨h1, h2, h3⟩ := ih cs' g' r' hrec
          refine ⟨by simp [h1], ?_, by simp [h3]⟩
          intro x hx
          rcases List.mem_cons.mp hx with rfl | hx'
          · exact hc
          · exact h2 x hx'
      · rw [if_neg hc] at h; simp at h

theorem matchUUID_spec (cs g : List Char) (h : matchUUID cs = some g) :
    g.length = 32 ∧ ∀ c ∈ g, isHexDigit c := by
  unfold matchUUID at h
  cases h1 : takeHex 8 cs with
  | none => simp only [h1] at h; cases h
  | some p1 =>
  obtain ⟨g1, r1⟩ := p1
  simp only [h1] at h
  cases h2 : takeHex 4 (dropDash r1) with
  | none => simp only [h2] at h; cases h
  | some p2 =>
  obtain ⟨g2, r2⟩ := p2
  simp only [h2] at h
  cases h3 : takeHex 4 (dropDash r2) with
  | none => simp only [h3] at h; cases h
  | some p3 =>
  obtain ⟨g3, r3⟩ := p3
  simp only [h3] at h
  cases h4 : takeHex 4 (dropDash r3) with
  | none => simp only [h4] at h; cases h
  | some p4 =>
  obtain ⟨g4, r4⟩ := p4
  simp only [h4] at h
  cases h5 : takeHex 12 (dropDash r4) with
  | none => simp only [h5] at h; cases h
  | some p5 =>
  obtain ⟨g5, r5⟩ := p5
  simp only [h5] at h
  simp only [Option.some.injEq] at h
  subst h
  obtain ⟨l1, m1, -⟩ := takeHex_spec 8 _ _ _ h1
  obtain ⟨l2, m2, -⟩ := takeHex_spec 4 _ _ _ h2
  obtain ⟨l3, m3, -⟩ := takeHex_spec 4 _ _ _ h3
  obtain ⟨l4, m4, -⟩ := takeHex_spec 4 _ _ _ h4
  obtain ⟨l5, m5, -⟩ := takeHex_spec 12 _ _ _ h5
  constructor
  · simp [List.length_append, l1, l2, l3, l4, l5]
  · intro c hc
    simp only [List.mem_append] at hc
    rcases hc with (((hc | hc) | hc) | hc) | hc
    · exact m1 c hc
    · exact m2 c hc
    · exact m3 c hc
    · exact m4 c hc
    · exact m5 c hc

theorem scanUUID_some (cs : List Char) (g : List Char)
    (h : scanUUID cs = some g) : ∃ i, matchUUID (cs.drop i) = some g := by
  induction cs with
  | nil => cases h
  | cons c cs ih =>
    unfold scanUUID at h
    cases hm : matchUUID (c :: cs) with
    | some g0 =>
      rw [hm] at h
      obtain rfl : g0 = g := by injection h
      exact ⟨0, by rw [List.drop_zero]; exact hm⟩
    | none =>
      rw [hm] at h
      obtain ⟨i, hi⟩ := ih h
      exact ⟨i + 1, hi⟩

theorem scanUUID_none_iff (cs : List Char) :
    scanUUID cs = none ↔ ∀ i, matchUUID (cs.drop i) = none := by
  induction cs with
  | nil =>
    constructor
    · intro _ i; rw [List.drop_nil]; rfl
    · intro _; rfl
  | cons c cs ih =>
    constructor
    · intro h i
      have hm : matchUUID (c :: cs) = none := by
        cases hm : matchUUID (c :: cs) with
        | none => rfl
        | some g0 => unfold scanUUID at h; rw [hm] at h; cases h
      have ht : scanUUID cs = none := by
        unfold scanUUID at h; rw [hm] at h; exact h
      cases i with
      | zero => rw [List.drop_zero]; exact hm
      | succ j => exact (ih.mp ht) j
    · intro h
      have hm : matchUUID (c :: cs) = none := by
        have := h 0; rwa [List.drop_zero] at this
      unfold scanUUID
      rw [hm]
      exact ih.mpr (fun j => h (j + 1))

theorem scanUUID_first (cs : List Char) (i : Nat) (g : List Char)
    (hi : matchUUID (cs.drop i) = some g)
    (hmin : ∀ j < i, matchUUID (cs.drop j) = none) :
    scanUUID cs = some g := by
  induction cs generalizing i with
  | nil =>
    rw [List.drop_nil] at hi
    rw [show matchUUID ([] : List Char) = none from rfl] at hi
    cases hi
  | cons c cs ih =>
    cases i with
    | zero =>
      rw [List.drop_zero] at hi
      unfold scanUUID
      rw [hi]
    | succ j =>
      have h0 : matchUUID (c :: cs) = none := by
        have := hmin 0 (Nat.succ_pos j); rwa [List.drop_zero] at this
      unfold scanUUID
      rw [h0]
      exact ih j hi (fun k hk => hmin (k + 1) (Nat.succ_lt_succ hk))

/-- C1: for every changelog entry, the summary text placed into the
rendered block structure by `buildNotionBlocks` is the first 2000
characters of the entry's summary: its length never exceeds 2000, and
a summary longer than 2000 characters is truncated to exactly 2000
characters rather than rejected. -/
theorem C1_summary_truncated (e : ChangelogEntry) :
    ((buildNotionBlocks e).getD 2 .divider).firstContent = substringTo e.summary 2000 ∧
    ((buildNotionBlocks e).getD 2 .divider).firstContent.data.length ≤ 2000 ∧
    (2000 ≤ e.summary.data.length →
      ((buildNotionBlocks e).getD 2 .divider).firstContent.data.length = 2000) := by
  refine ⟨rfl, ?_, ?_⟩
  · show (e.summary.data.take 2000).length ≤ 2000
    rw [List.length_take]
    exact Nat.min_le_left _ _
  · intro h
    show (e.summary.data.take 2000).length = 2000
    rw [List.length_take]
    exact Nat.min_eq_left h

/-- Witness for C1: a 2001-character summary renders as exactly 2000
characters. -/
theorem C1_summary_truncated_witness :
    2000 ≤ (String.mk (List.replicate 2001 'a')).data.length ∧
    ((buildNotionBlocks
        ⟨"pr", "2026-01-21", "Test", some 1, none, "user", "https://example.com",
          ⟨List.replicate 2001 'a'⟩, "", none⟩).getD 2 .divider).firstContent.data.length
      = 2000 :=
  ⟨by show 2000 ≤ (List.replicate 2001 'a').length; rw [List.length_replicate]; omega,
   (C1_summary_truncated _).2.2
     (by show 2000 ≤ (List.replicate 2001 'a').length; rw [List.length_replicate]; omega)⟩

/-- C2: the changelog prompt includes its "Changed Files" collapsible
section only when the entry's `files` field is non-empty after
trimming; for an empty or whitespace-only `files` field the rendered
prompt is the bare template with no changed-files section at all. -/
theorem C2_changed_files_only_when_nonempty (e : ChangelogEntry) (pid : String) :
    (strTrim e.files = "" →
      buildChangelogPrompt e pid = promptHead e pid ++ promptTailText) ∧
    (strTrim e.files ≠ "" →
      buildChangelogPrompt e pid =
        promptHead e pid ++ ("\n\nChanged Files (collapsible toggle):\n" ++ e.files)
          ++ promptTailText) := by
  constructor
  · intro h
    unfold buildChangelogPrompt changedFilesSection
    rw [if_pos h, String.append_empty]
  · intro h
    unfold buildChangelogPrompt changedFilesSection
    rw [if_neg h]

/-- Witness for C2: empty and whitespace-only `files` yield the bare
prompt; a non-empty listing yields the prompt with the section. -/
theorem C2_changed_files_only_when_nonempty_witness :
    buildChangelogPrompt
        ⟨"pr", "2026-01-21", "Minor fix", some 1, none, "user",
          "https://example.com", "Fix", "", none⟩ "page-id" =
      promptHead
        ⟨"pr", "2026-01-21", "Minor fix", some 1, none, "user",
          "https://example.com", "Fix", "", none⟩ "page-id" ++ promptTailText ∧
    buildChangelogPrompt
        ⟨"pr", "2026-01-21", "Minor fix", some 1, none, "user",
          "https://example.com", "Fix", "  \n ", none⟩ "page-id" =
      promptHead
        ⟨"pr", "2026-01-21", "Minor fix", some 1, none, "user",
          "https://example.com", "Fix", "  \n ", none⟩ "page-id" ++ promptTailText ∧
    buildChangelogPrompt
        ⟨"pr", "2026-01-21", "Add feature", some 42, none, "testuser",
          "https://example.com", "S", "- src/index.js (modified, +10/-5)", none⟩ "page-id" =
      promptHead
        ⟨"pr", "2026-01-21", "Add feature", some 42, none, "testuser",
          "https://example.com", "S", "- src/index.js (modified, +10/-5)", none⟩ "page-id"
        ++ ("\n\nChanged Files (collapsible toggle):\n"
            ++ "- src/index.js (modified, +10/-5)") ++ promptTailText :=
  ⟨(C2_changed_files_only_when_nonempty _ _).1 (by decide),
   (C2_changed_files_only_when_nonempty _ _).1 (by decide),
   (C2_changed_files_only_when_nonempty _ _).2 (by decide)⟩

/-- C3: `extractPageId` returns null on empty or absent input; when
the text has a substring matching the UUID shape (8-4-4-4-12 hex
groups, hyphens optional) it returns the first such match with all
hyphens stripped — exactly 32 hexadecimal characters, no separators —
and it returns null when no position of the text matches. -/
theorem C3_extractPageId_spec :
    extractPageId none = none ∧
    extractPageId (some "") = none ∧
    (∀ s r, extractPageId (some s) = some r →
      r.data.length = 32 ∧ (∀ c ∈ r.data, isHexDigit c) ∧ '-' ∉ r.data) ∧
    (∀ s, (∀ i, matchUUID (s.data.drop i) = none) →
      extractPageId (some s) = none) ∧
    (∀ s i g, matchUUID (s.data.drop i) = some g →
      (∀ j < i, matchUUID (s.data.drop j) = none) →
      extractPageId (some s) = some ⟨g⟩) := by
  refine ⟨rfl, rfl, ?_, ?_, ?_⟩
  · intro s r h
    simp only [extractPageId] at h
    by_cases hs : s = ""
    · rw [if_pos hs] at h; cases h
    · rw [if_neg hs] at h
      cases hscan : scanUUID s.data with
      | none => rw [hscan] at h; cases h
      | some g =>
        rw [hscan] at h
        obtain rfl : (⟨g⟩ : String) = r := by injection h
        obtain ⟨i, hi⟩ := scanUUID_some s.data g hscan
        obtain ⟨hlen, hhex⟩ := matchUUID_spec _ g hi
        refine ⟨hlen, hhex, fun hmem => ?_⟩
        have := hhex '-' hmem
        exact absurd this (by decide)
  · intro s hall
    simp only [extractPageId]
    by_cases hs : s = ""
    · rw [if_pos hs]
    · rw [if_neg hs, (scanUUID_none_iff s.data).mpr hall]
      rfl
  · intro s i g hi hmin
    have hs : s ≠ "" := by
      intro hs
      subst hs
      rw [show String.data "" = [] from rfl, List.drop_nil] at hi
      rw [show matchUUID ([] : List Char) = none from rfl] at hi
      cases hi
    simp only [extractPageId]
    rw [if_neg hs, scanUUID_first s.data i g hi hmin]
    rfl

/-- Witness for C3: the dashed UUID in a free-form response is found
at its leftmost position and returned dash-free. -/
theorem C3_extractPageId_spec_witness :
    extractPageId
        (some "Here it is: 12345678-1234-1234-1234-123456789abc, done.") =
      some "12345678123412341234123456789abc" := by
  have h := C3_extractPageId_spec.2.2.2.2
      "Here it is: 12345678-1234-1234-1234-123456789abc, done." 12
      ("12345678123412341234123456789abc").data (by decide) (by decide)
  exact h

/-- C4: `createSyncChangelogEntry` sets the entry's commit hash to the
first 7 characters of the full hash; for a full (at least 7-character)
hash the short hash is exactly 7 characters long. -/
theorem C4_short_commit_hash (repo : Repo) (c : LatestCommit)
    (filesList today : String) (h : 7 ≤ c.sha.data.length) :
    (createSyncChangelogEntry repo c filesList today).commit =
      some (substringTo c.sha 7) ∧
    (substringTo c.sha 7).data = c.sha.data.take 7 ∧
    (substringTo c.sha 7).data.length = 7 := by
  refine ⟨rfl, rfl, ?_⟩
  show (c.sha.data.take 7).length = 7
  rw [List.length_take]
  exact Nat.min_eq_left h

/-- Witness for C4 at the test hash `abc1234567890`. -/
theorem C4_short_commit_hash_witness :
    7 ≤ ("abc1234567890" : String).data.length ∧
    (createSyncChangelogEntry ⟨"main", none⟩
        ⟨"abc1234567890", "Test Author", "m", "https://example.com"⟩
        "" "2026-01-21").commit = some "abc1234" :=
  ⟨by decide,
   by
    rw [(C4_short_commit_hash ⟨"main", none⟩
        ⟨"abc1234567890", "Test Author", "m", "https://example.com"⟩
        "" "2026-01-21" (by decide)).1]
    decide⟩

/-- C5: `createPRChangelogEntry` sets `summary` to the placeholder
`No description provided` when the request body is absent (and, JS
falsiness oblige, when it is the empty string), and to the body
verbatim — untruncated — when a non-empty body is present. -/
theorem C5_summary_placeholder (pr : PullRequest) (filesList today : String) :
    (pr.body = none →
      (createPRChangelogEntry pr filesList today).summary = "No description provided") ∧
    (pr.body = some "" →
      (createPRChangelogEntry pr filesList today).summary = "No description provided") ∧
    (∀ s, pr.body = some s → s ≠ "" →
      (createPRChangelogEntry pr filesList today).summary = s) := by
  refine ⟨?_, ?_, ?_⟩
  · intro h
    show jsOr pr.body _ = _
    rw [h]
    rfl
  · intro h
    show jsOr pr.body _ = _
    rw [h]
    rfl
  · intro s h hs
    show jsOr pr.body _ = s
    rw [h]
    show (if s = "" then _ else s) = s
    rw [if_neg hs]

/-- Witness for C5: absent body gives the placeholder, a present body
is kept verbatim. -/
theorem C5_summary_placeholder_witness :
    (createPRChangelogEntry ⟨"Fix bug", 1, "dev", "https://example.com", none⟩
        "" "2026-01-21").summary = "No description provided" ∧
    (createPRChangelogEntry
        ⟨"Add new feature", 42, "testuser", "https://example.com",
          some "This PR adds a new feature"⟩ "" "2026-01-21").summary =
      "This PR adds a new feature" :=
  ⟨(C5_summary_placeholder _ "" "2026-01-21").1 rfl,
   (C5_summary_placeholder _ "" "2026-01-21").2.2
     "This PR adds a new feature" rfl (by decide)⟩

/-- C6: `formatPRFiles` yields the empty string on the empty list and
otherwise exactly one line per input file — each line the rendered
bullet `prLine` — joined by single newlines with no separator after
the last line. -/
theorem C6_one_line_per_file (files : List PRFile) :
    formatPRFiles [] = "" ∧
    (files ≠ [] → (∀ f ∈ files, '\n' ∉ (prLine f).data) →
      splitNl (formatPRFiles files).data =
        files.map (fun f => (prLine f).data)) :=
  ⟨rfl, fun hne h => formatPRFiles_splitNl files hne h⟩

/-- Witness for C6 on the two-file jest example. -/
theorem C6_one_line_per_file_witness :
    splitNl (formatPRFiles
        [⟨"src/index.js", "modified", 10, 5⟩, ⟨"README.md", "added", 20, 0⟩]).data =
      [⟨"src/index.js", "modified", 10, 5⟩,
        (⟨"README.md", "added", 20, 0⟩ : PRFile)].map (fun f => (prLine f).data) :=
  (C6_one_line_per_file _).2 (by simp) (by decide)

/-- C7: `formatTreeFiles` keeps only blob entries, never a
directory-kind entry, keeps at most `limit` of them in the input
order (the kept entries form a sublist of the input), renders one
`- <path>` line each with no trailing newline, and yields the empty
string when nothing is kept. -/
theorem C7_tree_files_shape (tree : List TreeItem) (limit : Nat) :
    ((tree.filter (fun t => t.type = "blob")).take limit).length ≤ limit ∧
    (∀ t ∈ (tree.filter (fun t => t.type = "blob")).take limit, t.type = "blob") ∧
    List.Sublist ((tree.filter (fun t => t.type = "blob")).take limit) tree ∧
    ((tree.filter (fun t => t.type = "blob")).take limit = [] →
      formatTreeFiles tree limit = "") ∧
    ((tree.filter (fun t => t.type = "blob")).take limit ≠ [] →
      (∀ t ∈ (tree.filter (fun t => t.type = "blob")).take limit,
        '\n' ∉ (treeLine t).data) →
      splitNl (formatTreeFiles tree limit).data =
        ((tree.filter (fun t => t.type = "blob")).take limit).map
          (fun t => (treeLine t).data)) := by
  refine ⟨?_, ?_, ?_, ?_, fun hne h => formatTreeFiles_splitNl tree limit hne h⟩
  · rw [List.length_take]
    exact Nat.min_le_left _ _
  · intro t ht
    have hmem := List.take_subset _ _ ht
    exact of_decide_eq_true (List.mem_filter.mp hmem).2
  · exact (List.take_sublist _ _).trans (List.filter_sublist _)
  · intro h
    unfold formatTreeFiles
    rw [h]
    rfl

/-- Witness for C7 on the jest example with a directory entry. -/
theorem C7_tree_files_shape_witness :
    splitNl (formatTreeFiles
        [⟨"src/index.js", "blob"⟩, ⟨"src/utils.js", "blob"⟩, ⟨"src", "tree"⟩]).data =
      (([⟨"src/index.js", "blob"⟩, ⟨"src/utils.js", "blob"⟩,
          (⟨"src", "tree"⟩ : TreeItem)].filter
            (fun t => t.type = "blob")).take 50).map (fun t => (treeLine t).data) :=
  (C7_tree_files_shape _ 50).2.2.2.2 (by decide) (by decide)

/-- C8: the reference paragraph built by `buildNotionBlocks` carries
the entry's url as its link, and its text is
`PR #<number> by @<author>` for a pull-request entry and
`Commit <hash> by <author>` for a sync entry. -/
theorem C8_reference_line (e : ChangelogEntry) :
    ((buildNotionBlocks e).getD 1 .divider).firstLink = some e.url ∧
    (∀ n, e.type = "pr" → e.prNumber = some n →
      ((buildNotionBlocks e).getD 1 .divider).firstContent =
        "PR #" ++ toString n ++ " by @" ++ e.author) ∧
    (∀ hsh, e.type = "sync" → e.commit = some hsh →
      ((buildNotionBlocks e).getD 1 .divider).firstContent =
        "Commit " ++ hsh ++ " by " ++ e.author) := by
  refine ⟨rfl, ?_, ?_⟩
  · intro n ht hn
    show referenceText e = _
    unfold referenceText
    rw [if_pos ht, hn]
    rfl
  · intro hsh ht hc
    have hne : ¬ e.type = "pr" := by rw [ht]; decide
    show referenceText e = _
    unfold referenceText
    rw [if_neg hne, hc]
    rfl

/-- Witness for C8 on the jest pull-request and sync entries. -/
theorem C8_reference_line_witness :
    ((buildNotionBlocks
        ⟨"pr", "2026-01-21", "Add feature", some 42, none, "testuser",
          "https://example.com", "s", "- file.js", none⟩).getD 1 .divider).firstContent =
      "PR #42 by @testuser" ∧
    ((buildNotionBlocks
        ⟨"sync", "2026-01-21", "T", none, some "abc1234", "Test Author",
          "https://example.com", "s", "", none⟩).getD 1 .divider).firstContent =
      "Commit abc1234 by Test Author" := by
  constructor
  · rw [(C8_reference_line _).2.1 42 rfl rfl]
    decide
  · rw [(C8_reference_line _).2.2 "abc1234" rfl rfl]
    decide

/-- C9: `buildNotionBlocks` always returns exactly five blocks, in the
fixed order heading_2, paragraph, paragraph, toggle, divider; the
heading text is `<date> - <title>`, the toggle is titled
`Changed files`, and the final block is a divider — for every entry,
whatever its kind or field contents. -/
theorem C9_blocks_fixed_shape (e : ChangelogEntry) :
    (buildNotionBlocks e).map NotionBlock.typeName =
      ["heading_2", "paragraph", "paragraph", "toggle", "divider"] ∧
    (buildNotionBlocks e).length = 5 ∧
    ((buildNotionBlocks e).getD 0 .divider).firstContent = e.date ++ " - " ++ e.title ∧
    ((buildNotionBlocks e).getD 3 .divider).firstContent = "Changed files" ∧
    (buildNotionBlocks e).getD 4 .divider = NotionBlock.divider :=
  ⟨rfl, rfl, rfl, rfl, rfl⟩

/-- C10: in `formatTreeFiles` the limit is applied after the blob
filter, so directory entries never consume limit slots: whenever the
input holds more than `limit` blob entries (however interleaved with
directory entries), the output has exactly `limit` lines. -/
theorem C10_limit_after_filter (tree : List TreeItem) (limit : Nat)
    (hmore : limit < (tree.filter (fun t => t.type = "blob")).length)
    (hpos : 0 < limit)
    (h : ∀ t ∈ (tree.filter (fun t => t.type = "blob")).take limit,
      '\n' ∉ (treeLine t).data) :
    (splitNl (formatTreeFiles tree limit).data).length = limit := by
  have hlen : ((tree.filter (fun t => t.type = "blob")).take limit).length = limit := by
    rw [List.length_take]
    exact Nat.min_eq_left (Nat.le_of_lt hmore)
  have hne : (tree.filter (fun t => t.type = "blob")).take limit ≠ [] := by
    intro hh
    rw [hh] at hlen
    simp at hlen
    omega
  rw [formatTreeFiles_splitNl tree limit hne h, List.length_map, hlen]

/-- Witness for C10: three blobs interleaved with two directories,
limit 2 — exactly 2 lines, the directories costing nothing. -/
theorem C10_limit_after_filter_witness :
    (splitNl (formatTreeFiles
        [⟨"src", "tree"⟩, ⟨"a.js", "blob"⟩, ⟨"b.js", "blob"⟩,
          ⟨"docs", "tree"⟩, ⟨"c.js", "blob"⟩] 2).data).length = 2 :=
  C10_limit_after_filter _ 2 (by decide) (by decide) (by decide)

end DocUpdater
